import Mathlib

/-!
Shallow embedding of the carbon-attribution core of the HyperOPS "Ecopay"
dashboard (`module1.py`): the `CarbonScoringEngine` lookup tables,
`calculate_footprint`, `calculate_eco_score`, the daily group-by
aggregation feeding the forecaster, and `plot_forecast`, which fits a
degree-1 polynomial by least squares (`np.polyfit(X, y, 1)`) and projects
30 days forward.

Python floats are modelled as exact rationals; a float `nan` is modelled
by `none` in `PVal`.  A dataframe cell that may be missing (absent key,
read by `row.get(key, default)`) is modelled by an outer `Option`.
-/

/-- A Python float value: `some q` is an ordinary (exact) value, `none` is `nan`. -/
abbrev PVal := Option ℚ

/-- `nan`-propagating multiplication of a possibly-`nan` value by a rational
(`amount * factor` in `calculate_footprint`). -/
def pvMul : PVal → ℚ → PVal
  | none, _ => none
  | some a, f => some (a * f)

/-- One transaction record as `CarbonScoringEngine.calculate_footprint` sees it.
`category`/`subcategory`: `none` models a missing key (for `subcategory` also a
non-string `nan` cell: both fail the exact-match test and the
`isinstance(subcategory, str) and 'Meat' in subcategory` test, and resolve to the
category factor, exactly as `row.get('Subcategory', '')` does).
`amount`: outer `none` = key missing (`row.get('Amount', 0)` yields `0`),
`some none` = a `nan` cell, `some (some q)` = an ordinary number. -/
structure Row where
  category : Option String
  subcategory : Option String
  amount : Option PVal

/-- `CarbonScoringEngine.EMISSION_FACTORS` (category → kg CO2e per currency unit). -/
def EMISSION_FACTORS : List (String × ℚ) :=
  [("Transportation", 0.15), ("Food", 0.06), ("Utilities", 0.20),
   ("Household", 0.08), ("Apparel", 0.10), ("Education", 0.01),
   ("Health", 0.03), ("Personal Development", 0.01), ("Festivals", 0.05),
   ("subscription", 0.005), ("Other", 0.05)]

/-- `CarbonScoringEngine.SUBCATEGORY_FACTORS` (subcategory override factors). -/
def SUBCATEGORY_FACTORS : List (String × ℚ) :=
  [("Train", 0.04), ("Air", 0.25), ("auto", 0.12),
   ("Vegetables", 0.03), ("Meat", 0.15)]

/-- `charsLead needle hay`: `needle` is an initial segment of `hay`. -/
def charsLead : List Char → List Char → Bool
  | [], _ => true
  | _ :: _, [] => false
  | c :: cs, d :: ds => c == d && charsLead cs ds

/-- `charsHave needle hay`: `needle` occurs contiguously somewhere in `hay`. -/
def charsHave (needle : List Char) : List Char → Bool
  | [] => needle.isEmpty
  | c :: cs => charsLead needle (c :: cs) || charsHave needle cs

/-- The Python substring test `'Meat' in subcategory`. -/
def containsMeat (s : String) : Bool := charsHave "Meat".data s.data

/-- `CarbonScoringEngine.calculate_footprint(row)`: resolve the emission factor
(category table with default `0.05`, overridden by an exact subcategory match,
else by `0.12` when the subcategory string contains `"Meat"`) and return
`(factor, amount * factor)`. -/
def calculate_footprint (row : Row) : ℚ × PVal :=
  let category := row.category.getD "Other"
  let amount := row.amount.getD (some 0)
  let factor0 := (EMISSION_FACTORS.lookup category).getD 0.05
  let factor :=
    match row.subcategory with
    | some s =>
        match SUBCATEGORY_FACTORS.lookup s with
        | some f => f
        | none => if containsMeat s then 0.12 else factor0
    | none => factor0
  (factor, pvMul amount factor)

/-- Python `int(...)`: truncation toward zero. -/
def pyInt (q : ℚ) : ℤ := if q < 0 then -⌊-q⌋ else ⌊q⌋

/-- `CarbonScoringEngine.calculate_eco_score(carbon_mass, amount)` on ordinary
(non-`nan`) numbers: `100` when `amount == 0`, else
`int(max(0, 100 - (carbon_mass/amount) * 400))`. -/
def calculate_eco_score (carbon_mass amount : ℚ) : ℤ :=
  if amount = 0 then 100
  else pyInt (max 0 (100 - carbon_mass / amount * 400))

/-- `calculate_eco_score` as applied row-wise in `main` to the possibly-`nan`
`Carbon_Footprint_kg` and `Amount` columns.  A `nan` never equals `0`, a `nan`
intensity makes `max(0, nan)` return the first argument `0`, and `int(0)` is
`0`. -/
def pvEcoScore (carbon_mass amount : PVal) : ℤ :=
  if amount = some 0 then 100
  else
    match carbon_mass, amount with
    | some c, some a => pyInt (max 0 (100 - c / a * 400))
    | _, _ => 0

/-- Factor resolution written in the order the spec states it: exact
subcategory match, else the `"Meat"` substring heuristic, else the category
lookup, else the fallback constant `0.05`. -/
def specFactor (row : Row) : ℚ :=
  match row.subcategory.bind (fun s => SUBCATEGORY_FACTORS.lookup s) with
  | some f => f
  | none =>
      if (row.subcategory.map containsMeat).getD false then 0.12
      else
        match EMISSION_FACTORS.lookup (row.category.getD "Other") with
        | some f => f
        | none => 0.05

/-- The eco-score formula exactly as the spec states it:
`clamp(0, 100, 100 - (carbon_mass/amount)*400)` truncated to an integer, with
`amount = 0` defined as `100`. -/
def specEcoScoreClamp (carbon_mass amount : ℚ) : ℤ :=
  if amount = 0 then 100
  else pyInt (min 100 (max 0 (100 - carbon_mass / amount * 400)))

/-- `daily_emissions.sort_values('Date')` on (date, value) pairs. -/
def sortByDate (l : List (ℤ × ℚ)) : List (ℤ × ℚ) :=
  l.insertionSort (fun p q => p.1 ≤ q.1)

/-- pandas' reduction sum with its default `skipna=True`: `nan` entries are
skipped, and a group whose entries are all `nan` sums to `0.0`. -/
def pdSum (l : List PVal) : ℚ := (l.filterMap id).sum

/-- The literal left-to-right float summation of the same entries: a single
`nan` term poisons the whole total.  This is what “summing `carbon_mass_kg`
per row” means in float arithmetic, against which `pdSum` is compared. -/
def floatSum : List PVal → PVal
  | [] => some 0
  | v :: t =>
      match v, floatSum t with
      | some a, some b => some (a + b)
      | _, _ => none

/-- The `Carbon_Footprint_kg` total pandas computes for day `d` over attributed
rows of shape (`Date` cell, carbon mass): the `skipna` sum of the values of the
rows dated `d`.  A date cell is `none` for pandas `NaT` (an unparseable date
under `to_datetime(..., errors='coerce')`); a carbon mass is `none` for `nan`
(produced by a `nan` amount, see `C8_counterexample`). -/
def sumForDay (rows : List (Option ℤ × PVal)) (d : ℤ) : ℚ :=
  pdSum ((rows.filter (fun r => r.1 == some d)).map Prod.snd)

/-- `filtered_df.groupby('Date')[['Carbon_Footprint_kg']].sum().reset_index()`:
one pair per distinct non-`NaT` day (group keys drop `NaT`, pandas default
`dropna=True`, and come out in sorted order), carrying the `skipna` sum of that
day's `Carbon_Footprint_kg` values — `nan` masses are skipped, not summed. -/
def dailyAggregate (rows : List (Option ℤ × PVal)) : List (ℤ × ℚ) :=
  (((rows.filterMap Prod.fst).dedup).insertionSort (fun a b => a ≤ b)).map
    (fun d => (d, sumForDay rows d))

/-- `∑ i` over the index sequence `0 .. n-1` (the `DayIndex` column). -/
def sumX (n : ℕ) : ℚ := ∑ i ∈ Finset.range n, (i : ℚ)

/-- `∑ i^2` over the index sequence. -/
def sumXX (n : ℕ) : ℚ := ∑ i ∈ Finset.range n, (i : ℚ) ^ 2

/-- `∑ y_i` over the observed daily totals. -/
def sumY (ys : List ℚ) : ℚ := ∑ i ∈ Finset.range ys.length, ys.getD i 0

/-- `∑ i * y_i`. -/
def sumXY (ys : List ℚ) : ℚ := ∑ i ∈ Finset.range ys.length, (i : ℚ) * ys.getD i 0

/-- `np.polyfit(X, y, 1)` for `X = 0, 1, ..., n-1`: the ordinary least-squares
line `y = a*x + b`, via the unique solution `(a, b)` of the normal equations
(`polyfit_minimizes` below proves it minimizes the squared loss). -/
def polyfit1 (ys : List ℚ) : ℚ × ℚ :=
  let n : ℚ := ys.length
  let d := n * sumXX ys.length - sumX ys.length ^ 2
  ((n * sumXY ys - sumX ys.length * sumY ys) / d,
   (sumY ys * sumXX ys.length - sumX ys.length * sumXY ys) / d)

/-- The squared loss of the line `y = p*x + q` on points `(i, ys_i)`. -/
def lossQ (ys : List ℚ) (p q : ℚ) : ℚ :=
  ∑ i ∈ Finset.range ys.length, (ys.getD i 0 - (p * (i : ℚ) + q)) ^ 2

/-- `plot_forecast(daily_emissions)`, restricted to the data it computes: `none`
when fewer than 5 daily points (`empty or len < 5`), else the 30 projected
`(future_date, projected_value)` pairs: dates `last + 1 .. last + 30`, values
`a*x + b` at `x = n .. n + 29` (`future_days = np.arange(n, n + 30)`).  The
source's inner `if len(X) > 0` guard is always true once `n >= 5` and its
trailing `return None` is unreachable. -/
def plot_forecast (daily : List (ℤ × ℚ)) : Option (List (ℤ × ℚ)) :=
  if daily.length < 5 then none
  else
    let sorted := sortByDate daily
    let ys := sorted.map Prod.snd
    let ab := polyfit1 ys
    let lastDate := (sorted.getLastD (0, 0)).1
    some ((List.range 30).map fun k : ℕ =>
      (lastDate + (k : ℤ) + 1, ab.1 * ((ys.length : ℚ) + (k : ℚ)) + ab.2))

/-! ### Helper lemmas on factor resolution -/

/-- A successful association-list lookup returns one of the stored values. -/
theorem lookup_sound (P : ℚ → Prop) :
    ∀ l : List (String × ℚ), (∀ p ∈ l, P p.2) →
      ∀ s f, List.lookup s l = some f → P f := by
  intro l
  induction l with
  | nil => intro _ s f h; simp [List.lookup] at h
  | cons a t ih =>
      intro hl s f h
      cases hbe : s == a.1
      · rw [List.lookup, hbe] at h
        exact ih (fun p hp => hl p (List.mem_cons_of_mem _ hp)) s f h
      · rw [List.lookup, hbe] at h
        cases h
        exact hl a (List.mem_cons_self a t)

/-- Every factor in the subcategory override table lies in `(0, 0.25]`. -/
theorem subcategory_table_bounds :
    ∀ p ∈ SUBCATEGORY_FACTORS, 0 < p.2 ∧ p.2 ≤ 0.25 := by
  intro p hp
  simp only [SUBCATEGORY_FACTORS, List.mem_cons, List.not_mem_nil, or_false] at hp
  rcases hp with h | h | h | h | h <;> subst h <;> norm_num

/-- Every factor in the category table lies in `(0, 0.25]`. -/
theorem emission_table_bounds :
    ∀ p ∈ EMISSION_FACTORS, 0 < p.2 ∧ p.2 ≤ 0.25 := by
  intro p hp
  simp only [EMISSION_FACTORS, List.mem_cons, List.not_mem_nil, or_false] at hp
  rcases hp with h | h | h | h | h | h | h | h | h | h | h <;> subst h <;> norm_num

/-- The category-table factor with its `0.05` default lies in `(0, 0.25]`. -/
theorem factor0_bounds (c : Option String) :
    0 < (List.lookup (c.getD "Other") EMISSION_FACTORS).getD 0.05 ∧
      (List.lookup (c.getD "Other") EMISSION_FACTORS).getD 0.05 ≤ 0.25 := by
  cases hl : List.lookup (c.getD "Other") EMISSION_FACTORS with
  | none => norm_num
  | some f =>
      simpa using lookup_sound (fun f => 0 < f ∧ f ≤ 0.25) EMISSION_FACTORS
        emission_table_bounds _ f hl

/-- The resolved emission factor always lies in `(0, 0.25]`. -/
theorem factor_bounds (r : Row) :
    0 < (calculate_footprint r).1 ∧ (calculate_footprint r).1 ≤ 0.25 := by
  unfold calculate_footprint
  cases hsub : r.subcategory with
  | none => simpa using factor0_bounds r.category
  | some s =>
      cases hl : List.lookup s SUBCATEGORY_FACTORS with
      | some f =>
          simpa [hl] using lookup_sound (fun f => 0 < f ∧ f ≤ 0.25) SUBCATEGORY_FACTORS
            subcategory_table_bounds s f hl
      | none =>
          by_cases hm : containsMeat s
          · simp only [hl, hm]
            norm_num
          · simpa [hl, hm] using factor0_bounds r.category

/-- Claim C1: for every transaction record, `calculate_footprint` returns the
factor resolved with precedence exact-subcategory-match → `"Meat"` substring
heuristic → category lookup → fallback `0.05`, and the carbon mass
`amount * factor` (with a missing amount read as `0` and `nan` propagating). -/
theorem C1_attribution_factor_precedence (r : Row) :
    calculate_footprint r = (specFactor r, pvMul (r.amount.getD (some 0)) (specFactor r)) := by
  have hfac : (calculate_footprint r).1 = specFactor r := by
    unfold calculate_footprint specFactor
    cases hsub : r.subcategory with
    | none =>
        cases hc : List.lookup (r.category.getD "Other") EMISSION_FACTORS <;>
          simp [hc]
    | some s =>
        cases hl : List.lookup s SUBCATEGORY_FACTORS with
        | some f => simp [hl]
        | none =>
            by_cases hm : containsMeat s
            · simp [hl, hm]
            · cases hc : List.lookup (r.category.getD "Other") EMISSION_FACTORS <;>
                simp [hl, hm, hc]
  have hmass : (calculate_footprint r).2
      = pvMul (r.amount.getD (some 0)) (calculate_footprint r).1 := rfl
  calc calculate_footprint r
      = ((calculate_footprint r).1, (calculate_footprint r).2) := rfl
    _ = (specFactor r, pvMul (r.amount.getD (some 0)) (specFactor r)) := by
        rw [hmass, hfac]

/-! ### Helper lemmas on the eco score -/

/-- On non-negative input, Python truncation agrees with the floor. -/
theorem pyInt_of_nonneg {q : ℚ} (h : 0 ≤ q) : pyInt q = ⌊q⌋ := by
  unfold pyInt
  rw [if_neg (not_lt.mpr h)]

/-- The eco score is never negative. -/
theorem ecoScore_nonneg (c a : ℚ) : 0 ≤ calculate_eco_score c a := by
  unfold calculate_eco_score
  split
  · norm_num
  · rw [pyInt_of_nonneg (le_max_left _ _)]
    exact Int.floor_nonneg.mpr (le_max_left _ _)

/-- When the carbon intensity is non-negative, the eco score is at most 100. -/
theorem ecoScore_le_100_of_intensity_nonneg (c a : ℚ) (h : 0 ≤ c / a) :
    calculate_eco_score c a ≤ 100 := by
  unfold calculate_eco_score
  split
  · exact le_refl _
  · have hmul : 0 ≤ c / a * 400 := mul_nonneg h (by norm_num)
    have hmax : max 0 (100 - c / a * 400) ≤ 100 := max_le (by norm_num) (by linarith)
    rw [pyInt_of_nonneg (le_max_left _ _)]
    calc ⌊max 0 (100 - c / a * 400)⌋ ≤ ⌊(100 : ℚ)⌋ := Int.floor_le_floor hmax
      _ = 100 := by norm_num

/-- On ordinary numbers the row-wise score agrees with `calculate_eco_score`. -/
theorem pvEcoScore_eq (c a : ℚ) :
    pvEcoScore (some c) (some a) = calculate_eco_score c a := by
  unfold pvEcoScore calculate_eco_score
  by_cases h : a = 0 <;> simp [h]

/-- The carbon-mass component is `amount * factor` with the defaults applied. -/
theorem footprint_mass_eq (r : Row) :
    (calculate_footprint r).2
      = pvMul (r.amount.getD (some 0)) (calculate_footprint r).1 := rfl

/-- Claim C2 counterexample: at `carbon_mass = -1, amount = 1` the code returns
`int(max(0, 500)) = 500`, not the clamped value `100` the claim states. -/
theorem C2_counterexample :
    calculate_eco_score (-1) 1 ≠ specEcoScoreClamp (-1) 1 := by
  have hv : (100 - (-1 : ℚ) / 1 * 400) = 500 := by norm_num
  have h1 : calculate_eco_score (-1) 1 = 500 := by
    unfold calculate_eco_score
    rw [if_neg (by norm_num : ¬(1 : ℚ) = 0), hv,
      max_eq_right (by norm_num : (0 : ℚ) ≤ 500)]
    rw [pyInt_of_nonneg (by norm_num : (0 : ℚ) ≤ 500)]
    norm_num
  have h2 : specEcoScoreClamp (-1) 1 = 100 := by
    unfold specEcoScoreClamp
    rw [if_neg (by norm_num : ¬(1 : ℚ) = 0), hv,
      max_eq_right (by norm_num : (0 : ℚ) ≤ 500),
      min_eq_left (by norm_num : (100 : ℚ) ≤ 500)]
    rw [pyInt_of_nonneg (by norm_num : (0 : ℚ) ≤ 100)]
    norm_num
  rw [h1, h2]
  decide

/-- Claim C2 (amended): `amount = 0` gives exactly `100`, and whenever the
carbon intensity `carbon_mass/amount` is non-negative — in particular for every
value the pipeline feeds it — the code agrees with the spec formula
`clamp(0, 100, 100 - (carbon_mass/amount)*400)` truncated to an integer.  (The
code clamps only from below, so for negative intensities it can exceed 100;
`C2_counterexample`.) -/
theorem C2_eco_score_clamped (cm am : ℚ) :
    (am = 0 → calculate_eco_score cm am = 100) ∧
    (0 ≤ cm / am → calculate_eco_score cm am = specEcoScoreClamp cm am) := by
  constructor
  · intro h
    simp [calculate_eco_score, h]
  · intro h
    by_cases ha : am = 0
    · simp [calculate_eco_score, specEcoScoreClamp, ha]
    · unfold calculate_eco_score specEcoScoreClamp
      rw [if_neg ha, if_neg ha]
      congr 1
      have hmul : 0 ≤ cm / am * 400 := mul_nonneg h (by norm_num)
      rw [min_eq_right (max_le (by norm_num) (by linarith))]

theorem C2_eco_score_clamped_witness :
    (0 : ℚ) ≤ 0 / 500 ∧ calculate_eco_score 0 500 = specEcoScoreClamp 0 500 ∧
      calculate_eco_score 3 0 = 100 :=
  ⟨by simp, (C2_eco_score_clamped 0 500).2 (by simp), (C2_eco_score_clamped 3 0).1 rfl⟩

/-- Claim C4: the eco score is monotonically non-increasing in carbon intensity
(for positive amounts), and for every transaction row (whatever its category,
subcategory, and present amount — ordinary, zero or `nan`) the score the
pipeline computes lies in `[0, 100]`. -/
theorem C4_eco_monotone_and_range :
    (∀ c1 a1 c2 a2 : ℚ, 0 < a1 → 0 < a2 → c2 / a2 ≤ c1 / a1 →
        calculate_eco_score c1 a1 ≤ calculate_eco_score c2 a2) ∧
    (∀ (r : Row) (a : PVal), r.amount = some a →
        0 ≤ pvEcoScore (calculate_footprint r).2 a ∧
          pvEcoScore (calculate_footprint r).2 a ≤ 100) := by
  constructor
  · intro c1 a1 c2 a2 h1 h2 hle
    unfold calculate_eco_score
    rw [if_neg (ne_of_gt h1), if_neg (ne_of_gt h2)]
    have hv : 100 - c1 / a1 * 400 ≤ 100 - c2 / a2 * 400 := by
      have := mul_le_mul_of_nonneg_right hle (by norm_num : (0 : ℚ) ≤ 400)
      linarith
    have hmax : max 0 (100 - c1 / a1 * 400) ≤ max 0 (100 - c2 / a2 * 400) :=
      max_le_max (le_refl 0) hv
    rw [pyInt_of_nonneg (le_max_left _ _), pyInt_of_nonneg (le_max_left _ _)]
    exact Int.floor_le_floor hmax
  · intro r a ha
    cases a with
    | none =>
        have hz : pvEcoScore (calculate_footprint r).2 none = 0 := by
          unfold pvEcoScore
          rw [if_neg (by simp)]
          cases (calculate_footprint r).2 <;> rfl
        rw [hz]
        exact ⟨le_refl 0, by norm_num⟩
    | some q =>
        have hcm : (calculate_footprint r).2 = some (q * (calculate_footprint r).1) := by
          rw [footprint_mass_eq, ha]
          rfl
        rw [hcm, pvEcoScore_eq]
        by_cases hq : q = 0
        · subst hq
          simp [calculate_eco_score]
        · have hint : q * (calculate_footprint r).1 / q = (calculate_footprint r).1 :=
            mul_div_cancel_left₀ _ hq
          have hfpos := (factor_bounds r).1
          refine ⟨ecoScore_nonneg _ _, ?_⟩
          apply ecoScore_le_100_of_intensity_nonneg
          rw [hint]
          exact le_of_lt hfpos

theorem C4_eco_monotone_and_range_witness :
    (0 : ℚ) < 1 ∧ (0 : ℚ) < 2 ∧ (0 : ℚ) / 2 ≤ 0 / 1 ∧
      calculate_eco_score 0 1 ≤ calculate_eco_score 0 2 ∧
      (Row.mk (some "Food") (some "Vegetables") (some (some 10))).amount = some (some 10) ∧
      0 ≤ pvEcoScore
          (calculate_footprint (Row.mk (some "Food") (some "Vegetables") (some (some 10)))).2
          (some 10) :=
  ⟨by decide, by decide, by simp,
    C4_eco_monotone_and_range.1 0 1 0 2 (by decide) (by decide) (by simp), rfl,
    (C4_eco_monotone_and_range.2
      (Row.mk (some "Food") (some "Vegetables") (some (some 10))) (some 10) rfl).1⟩

/-- Claim C7: the two worked examples.  `amount=1000, Transportation/Air`
resolves factor `0.25`, carbon mass `250`, eco score `0`; and
`amount=500, Food/Vegetables` resolves factor `0.03`, carbon mass `15`,
eco score `88`. -/
theorem C7_worked_examples :
    (calculate_footprint (Row.mk (some "Transportation") (some "Air") (some (some 1000)))).1
        = 0.25 ∧
    (calculate_footprint (Row.mk (some "Transportation") (some "Air") (some (some 1000)))).2
        = some 250 ∧
    calculate_eco_score 250 1000 = 0 ∧
    (calculate_footprint (Row.mk (some "Food") (some "Vegetables") (some (some 500)))).1
        = 0.03 ∧
    (calculate_footprint (Row.mk (some "Food") (some "Vegetables") (some (some 500)))).2
        = some 15 ∧
    calculate_eco_score 15 500 = 88 := by
  refine ⟨rfl, ?_, ?_, rfl, ?_, ?_⟩
  · rw [show (calculate_footprint
        (Row.mk (some "Transportation") (some "Air") (some (some 1000)))).2
        = some ((1000 : ℚ) * 0.25) from rfl]
    norm_num
  · have hv : (100 - (250 : ℚ) / 1000 * 400) = 0 := by norm_num
    unfold calculate_eco_score
    rw [if_neg (by norm_num : ¬(1000 : ℚ) = 0), hv, max_self,
      pyInt_of_nonneg (le_refl (0 : ℚ))]
    norm_num
  · rw [show (calculate_footprint
        (Row.mk (some "Food") (some "Vegetables") (some (some 500)))).2
        = some ((500 : ℚ) * 0.03) from rfl]
    norm_num
  · have hv : (100 - (15 : ℚ) / 500 * 400) = 88 := by norm_num
    unfold calculate_eco_score
    rw [if_neg (by norm_num : ¬(500 : ℚ) = 0), hv,
      max_eq_right (by norm_num : (0 : ℚ) ≤ 88),
      pyInt_of_nonneg (by norm_num : (0 : ℚ) ≤ 88)]
    norm_num

/-- Claim C8 counterexample: a `nan` amount is not treated as `0` — the code
propagates it, so the carbon mass of this `Food/Vegetables` record with a `nan`
amount is `nan`, not `0`. -/
theorem C8_counterexample :
    ¬ (calculate_footprint (Row.mk (some "Food") (some "Vegetables") (some none))).2
        = some 0 := by
  decide

/-- Claim C8 (amended): the attribution function is total — it returns a defined
`(factor, carbon_mass)` for every record.  A missing amount is read as `0`
(carbon mass `0`); an ordinary amount `q` gives carbon mass `q * factor`; but a
`nan` amount is not treated as `0`: it propagates to a `nan` carbon mass
(`C8_counterexample`). -/
theorem C8_amount_handling (r : Row) :
    (r.amount = none → (calculate_footprint r).2 = some 0) ∧
    (r.amount = some none → (calculate_footprint r).2 = none) ∧
    (∀ q : ℚ, r.amount = some (some q) →
        (calculate_footprint r).2 = some (q * (calculate_footprint r).1)) := by
  refine ⟨?_, ?_, ?_⟩
  · intro h
    rw [footprint_mass_eq, h]
    show some (0 * (calculate_footprint r).1) = some 0
    rw [zero_mul]
  · intro h
    rw [footprint_mass_eq, h]
    rfl
  · intro q h
    rw [footprint_mass_eq, h]
    rfl

theorem C8_amount_handling_witness :
    (Row.mk (some "Food") (some "Vegetables") none).amount = none ∧
    (calculate_footprint (Row.mk (some "Food") (some "Vegetables") none)).2 = some 0 ∧
    (calculate_footprint (Row.mk (some "Food") (some "Vegetables") (some none))).2 = none ∧
    (calculate_footprint (Row.mk (some "Food") (some "Vegetables") (some (some 7)))).2
      = some (7 * (calculate_footprint
          (Row.mk (some "Food") (some "Vegetables") (some (some 7)))).1) :=
  ⟨rfl,
    (C8_amount_handling (Row.mk (some "Food") (some "Vegetables") none)).1 rfl,
    (C8_amount_handling (Row.mk (some "Food") (some "Vegetables") (some none))).2.1 rfl,
    (C8_amount_handling (Row.mk (some "Food") (some "Vegetables") (some (some 7)))).2.2 7 rfl⟩

/-- Claim C9: the resolved factor always lies in `(0, 0.25]`; consequently a
transaction with non-negative amount gets a non-negative carbon mass, and its
eco score stays at most 100 even though the code only clamps from below. -/
theorem C9_factor_interval_and_consequences (r : Row) :
    (0 < (calculate_footprint r).1 ∧ (calculate_footprint r).1 ≤ 0.25) ∧
    ∀ q : ℚ, r.amount = some (some q) → 0 ≤ q →
      (calculate_footprint r).2 = some (q * (calculate_footprint r).1) ∧
      0 ≤ q * (calculate_footprint r).1 ∧
      calculate_eco_score (q * (calculate_footprint r).1) q ≤ 100 := by
  refine ⟨factor_bounds r, ?_⟩
  intro q hq hq0
  have hcm : (calculate_footprint r).2 = some (q * (calculate_footprint r).1) := by
    rw [footprint_mass_eq, hq]
    rfl
  refine ⟨hcm, mul_nonneg hq0 (le_of_lt (factor_bounds r).1), ?_⟩
  by_cases hz : q = 0
  · subst hz
    simp [calculate_eco_score]
  · apply ecoScore_le_100_of_intensity_nonneg
    rw [mul_div_cancel_left₀ _ hz]
    exact le_of_lt (factor_bounds r).1

theorem C9_factor_interval_and_consequences_witness :
    (Row.mk (some "Food") (some "Vegetables") (some (some 10))).amount = some (some 10) ∧
    (0 : ℚ) ≤ 10 ∧
    calculate_eco_score
        (10 * (calculate_footprint
          (Row.mk (some "Food") (some "Vegetables") (some (some 10)))).1) 10 ≤ 100 :=
  ⟨rfl, by decide,
    ((C9_factor_interval_and_consequences
        (Row.mk (some "Food") (some "Vegetables") (some (some 10)))).2
      10 rfl (by decide)).2.2⟩

/-- Claim C10: a subcategory string containing `"Meat"` that is not an exact
key of the override table resolves to exactly `0.12`, whatever the category —
strictly less than the `0.15` resolved for the exact subcategory `"Meat"`. -/
theorem C10_meat_substring_factor (r : Row) (s : String)
    (h1 : r.subcategory = some s) (h2 : containsMeat s = true)
    (h3 : List.lookup s SUBCATEGORY_FACTORS = none) :
    (calculate_footprint r).1 = 0.12 ∧
    (calculate_footprint (Row.mk r.category (some "Meat") r.amount)).1 = 0.15 ∧
    (calculate_footprint r).1
      < (calculate_footprint (Row.mk r.category (some "Meat") r.amount)).1 := by
  have ha : (calculate_footprint r).1 = 0.12 := by
    unfold calculate_footprint
    simp only [h1, h3, h2, if_true]
  have hb : (calculate_footprint (Row.mk r.category (some "Meat") r.amount)).1 = 0.15 := rfl
  refine ⟨ha, hb, ?_⟩
  rw [ha, hb]
  norm_num

theorem C10_meat_substring_factor_witness :
    (Row.mk (some "Food") (some "Red Meat") (some (some 10))).subcategory
        = some "Red Meat" ∧
    containsMeat "Red Meat" = true ∧
    List.lookup "Red Meat" SUBCATEGORY_FACTORS = none ∧
    (calculate_footprint (Row.mk (some "Food") (some "Red Meat") (some (some 10)))).1
        = 0.12 :=
  ⟨rfl, rfl, rfl,
    (C10_meat_substring_factor
      (Row.mk (some "Food") (some "Red Meat") (some (some 10))) "Red Meat" rfl rfl rfl).1⟩

/-! ### The degree-1 least-squares fit -/

/-- Gauss sum of the index sequence, in `ℚ`. -/
theorem sumX_closed (n : ℕ) : sumX n = (n : ℚ) * ((n : ℚ) - 1) / 2 := by
  induction n with
  | zero => simp [sumX]
  | succ m ih =>
      unfold sumX at ih ⊢
      rw [Finset.sum_range_succ, ih]
      push_cast
      ring

/-- Sum of squared indices, in `ℚ`. -/
theorem sumXX_closed (n : ℕ) :
    sumXX n = (n : ℚ) * ((n : ℚ) - 1) * (2 * (n : ℚ) - 1) / 6 := by
  induction n with
  | zero => simp [sumXX]
  | succ m ih =>
      unfold sumXX at ih ⊢
      rw [Finset.sum_range_succ, ih]
      push_cast
      ring

/-- With at least two sample points the normal-equation determinant is positive. -/
theorem det_pos (n : ℕ) (h : 2 ≤ n) :
    0 < (n : ℚ) * sumXX n - sumX n ^ 2 := by
  have hn : (2 : ℚ) ≤ (n : ℚ) := by exact_mod_cast h
  rw [sumX_closed, sumXX_closed]
  have hid : (n : ℚ) * ((n : ℚ) * ((n : ℚ) - 1) * (2 * (n : ℚ) - 1) / 6)
      - ((n : ℚ) * ((n : ℚ) - 1) / 2) ^ 2
      = (n : ℚ) ^ 2 * ((n : ℚ) - 1) * ((n : ℚ) + 1) / 12 := by
    ring
  rw [hid]
  have h1 : (0 : ℚ) < (n : ℚ) := by linarith
  have h2 : (0 : ℚ) < (n : ℚ) - 1 := by linarith
  have h3 : (0 : ℚ) < (n : ℚ) + 1 := by linarith
  have h4 : (0 : ℚ) < (n : ℚ) ^ 2 * ((n : ℚ) - 1) * ((n : ℚ) + 1) :=
    mul_pos (mul_pos (pow_pos h1 2) h2) h3
  linarith

/-- The fitted coefficients satisfy the two normal equations. -/
theorem polyfit_normal (ys : List ℚ)
    (hd : (ys.length : ℚ) * sumXX ys.length - sumX ys.length ^ 2 ≠ 0) :
    sumY ys - (polyfit1 ys).1 * sumX ys.length - (polyfit1 ys).2 * (ys.length : ℚ) = 0 ∧
    sumXY ys - (polyfit1 ys).1 * sumXX ys.length - (polyfit1 ys).2 * sumX ys.length = 0 := by
  have h1 : (polyfit1 ys).1
      = ((ys.length : ℚ) * sumXY ys - sumX ys.length * sumY ys)
        / ((ys.length : ℚ) * sumXX ys.length - sumX ys.length ^ 2) := rfl
  have h2 : (polyfit1 ys).2
      = (sumY ys * sumXX ys.length - sumX ys.length * sumXY ys)
        / ((ys.length : ℚ) * sumXX ys.length - sumX ys.length ^ 2) := rfl
  rw [h1, h2]
  constructor <;> (field_simp; ring)

/-- Sum of plain residuals against the line `y = a*x + b`. -/
theorem sum_residual (ys : List ℚ) (a b : ℚ) :
    ∑ i ∈ Finset.range ys.length, (ys.getD i 0 - (a * (i : ℚ) + b))
      = sumY ys - a * sumX ys.length - b * (ys.length : ℚ) := by
  have h1 : ∀ i ∈ Finset.range ys.length,
      ys.getD i 0 - (a * (i : ℚ) + b) = ys.getD i 0 - a * (i : ℚ) - b := by
    intro i _
    ring
  rw [Finset.sum_congr rfl h1, Finset.sum_sub_distrib, Finset.sum_sub_distrib,
    ← Finset.mul_sum, Finset.sum_const, Finset.card_range, nsmul_eq_mul]
  unfold sumY sumX
  ring

/-- Sum of index-weighted residuals against the line `y = a*x + b`. -/
theorem sum_x_residual (ys : List ℚ) (a b : ℚ) :
    ∑ i ∈ Finset.range ys.length, (i : ℚ) * (ys.getD i 0 - (a * (i : ℚ) + b))
      = sumXY ys - a * sumXX ys.length - b * sumX ys.length := by
  have h1 : ∀ i ∈ Finset.range ys.length,
      (i : ℚ) * (ys.getD i 0 - (a * (i : ℚ) + b))
        = (i : ℚ) * ys.getD i 0 - a * (i : ℚ) ^ 2 - b * (i : ℚ) := by
    intro i _
    ring
  rw [Finset.sum_congr rfl h1, Finset.sum_sub_distrib, Finset.sum_sub_distrib,
    ← Finset.mul_sum, ← Finset.mul_sum]
  unfold sumXY sumXX sumX
  ring

/-- Quadratic decomposition of the loss of an arbitrary line `y = p*x + q`
around the line `y = a*x + b`. -/
theorem loss_decomp (ys : List ℚ) (a b p q : ℚ) :
    lossQ ys p q = lossQ ys a b
      + (∑ i ∈ Finset.range ys.length, ((a - p) * (i : ℚ) + (b - q)) ^ 2)
      + 2 * (a - p) * (sumXY ys - a * sumXX ys.length - b * sumX ys.length)
      + 2 * (b - q) * (sumY ys - a * sumX ys.length - b * (ys.length : ℚ)) := by
  rw [← sum_x_residual ys a b, ← sum_residual ys a b]
  unfold lossQ
  rw [Finset.mul_sum, Finset.mul_sum, ← Finset.sum_add_distrib, ← Finset.sum_add_distrib,
    ← Finset.sum_add_distrib]
  apply Finset.sum_congr rfl
  intro i _
  ring

/-- `polyfit1` minimizes the squared loss among all lines: it is the
least-squares fit. -/
theorem polyfit_minimizes (ys : List ℚ) (h2 : 2 ≤ ys.length) (p q : ℚ) :
    lossQ ys (polyfit1 ys).1 (polyfit1 ys).2 ≤ lossQ ys p q := by
  have hd := ne_of_gt (det_pos ys.length h2)
  obtain ⟨e1, e2⟩ := polyfit_normal ys hd
  rw [loss_decomp ys (polyfit1 ys).1 (polyfit1 ys).2 p q, e1, e2, mul_zero, mul_zero,
    add_zero, add_zero]
  have hs : 0 ≤ ∑ i ∈ Finset.range ys.length,
      (((polyfit1 ys).1 - p) * (i : ℚ) + ((polyfit1 ys).2 - q)) ^ 2 :=
    Finset.sum_nonneg fun i _ => sq_nonneg _
  linarith

/-- Sorting by date does not change the number of points. -/
theorem sortByDate_length (l : List (ℤ × ℚ)) : (sortByDate l).length = l.length :=
  List.length_insertionSort _ l

/-- Claim C3: the forecaster returns a forecast precisely when it has at least
5 daily points (else the forecast is omitted), and the forecast consists of
exactly 30 `(future_date, projected_value)` pairs: the dates are the next 30
days, the values are `a*x + b` at the next 30 integer indices for the
least-squares line `(a, b)` (which minimizes the squared loss, by
`polyfit_minimizes`). -/
theorem C3_forecast_gate_and_shape (daily : List (ℤ × ℚ)) :
    (daily.length < 5 → plot_forecast daily = none) ∧
    (5 ≤ daily.length →
      ∃ out : List (ℤ × ℚ), plot_forecast daily = some out ∧
        out.length = 30 ∧
        (∀ k : ℕ, k < 30 →
          out.getD k (0, 0) =
            (((sortByDate daily).getLastD (0, 0)).1 + (k : ℤ) + 1,
             (polyfit1 ((sortByDate daily).map Prod.snd)).1 *
                 ((((sortByDate daily).map Prod.snd).length : ℚ) + (k : ℚ))
               + (polyfit1 ((sortByDate daily).map Prod.snd)).2)) ∧
        (∀ p q : ℚ,
          lossQ ((sortByDate daily).map Prod.snd)
              (polyfit1 ((sortByDate daily).map Prod.snd)).1
              (polyfit1 ((sortByDate daily).map Prod.snd)).2
            ≤ lossQ ((sortByDate daily).map Prod.snd) p q)) := by
  constructor
  · intro h
    unfold plot_forecast
    rw [if_pos h]
  · intro h
    have hlt : ¬daily.length < 5 := not_lt.mpr h
    refine ⟨(List.range 30).map fun k : ℕ =>
      (((sortByDate daily).getLastD (0, 0)).1 + (k : ℤ) + 1,
       (polyfit1 ((sortByDate daily).map Prod.snd)).1 *
           ((((sortByDate daily).map Prod.snd).length : ℚ) + (k : ℚ))
         + (polyfit1 ((sortByDate daily).map Prod.snd)).2), ?_, ?_, ?_, ?_⟩
    · unfold plot_forecast
      rw [if_neg hlt]
    · rw [List.length_map, List.length_range]
    · intro k hk
      rw [List.getD_eq_getElem _ _ (by
        rw [List.length_map, List.length_range]
        exact hk)]
      simp only [List.getElem_map, List.getElem_range]
    · intro p q
      apply polyfit_minimizes
      have hlen : ((sortByDate daily).map Prod.snd).length = daily.length := by
        rw [List.length_map, sortByDate_length]
      omega

theorem C3_forecast_gate_and_shape_witness :
    5 ≤ ([((1 : ℤ), (2 : ℚ)), (2, 3), (3, 4), (4, 5), (5, 6)] : List (ℤ × ℚ)).length ∧
    (plot_forecast [((1 : ℤ), (2 : ℚ)), (2, 3), (3, 4), (4, 5), (5, 6)]).isSome = true := by
  obtain ⟨out, ho, -, -, -⟩ :=
    (C3_forecast_gate_and_shape
      [((1 : ℤ), (2 : ℚ)), (2, 3), (3, 4), (4, 5), (5, 6)]).2 (by decide)
  exact ⟨by decide, by rw [ho]; rfl⟩

/-- Claim C6: with exactly 5 daily totals all equal to a constant `c`, every
one of the 30 projected values equals `c` — the projected line is flat. -/
theorem C6_constant_forecast_flat (ps : List (ℤ × ℚ)) (c : ℚ)
    (h5 : ps.length = 5) (hc : ∀ p ∈ ps, p.2 = c) :
    ((plot_forecast ps).getD []).map Prod.snd = List.replicate 30 c := by
  have hys : ∀ y ∈ (sortByDate ps).map Prod.snd, y = c := by
    intro y hy
    obtain ⟨p, hp, rfl⟩ := List.mem_map.mp hy
    exact hc p ((List.perm_insertionSort _ ps).mem_iff.mp hp)
  have hlen : ((sortByDate ps).map Prod.snd).length = 5 := by
    rw [List.length_map, sortByDate_length, h5]
  have hgetD : ∀ i < 5, ((sortByDate ps).map Prod.snd).getD i 0 = c := by
    intro i hi
    rw [List.getD_eq_getElem _ _ (by rw [hlen]; exact hi)]
    exact hys _ (List.getElem_mem _)
  have hsx : sumX 5 = 10 := by
    unfold sumX
    rw [Finset.sum_range_succ, Finset.sum_range_succ, Finset.sum_range_succ,
      Finset.sum_range_succ, Finset.sum_range_succ, Finset.sum_range_zero]
    norm_num
  have hsxx : sumXX 5 = 30 := by
    unfold sumXX
    rw [Finset.sum_range_succ, Finset.sum_range_succ, Finset.sum_range_succ,
      Finset.sum_range_succ, Finset.sum_range_succ, Finset.sum_range_zero]
    norm_num
  have hsy : sumY ((sortByDate ps).map Prod.snd) = 5 * c := by
    unfold sumY
    rw [hlen, Finset.sum_congr rfl fun i hi => hgetD i (Finset.mem_range.mp hi),
      Finset.sum_const, Finset.card_range, nsmul_eq_mul]
    norm_num
  have hsxy : sumXY ((sortByDate ps).map Prod.snd) = 10 * c := by
    unfold sumXY
    rw [hlen, Finset.sum_congr rfl fun i hi => by rw [hgetD i (Finset.mem_range.mp hi)],
      ← Finset.sum_mul]
    rw [show (∑ i ∈ Finset.range 5, (i : ℚ)) = sumX 5 from rfl, hsx]
  have hab : polyfit1 ((sortByDate ps).map Prod.snd) = (0, c) := by
    have h1 : polyfit1 ((sortByDate ps).map Prod.snd)
        = (((5 : ℚ) * sumXY ((sortByDate ps).map Prod.snd)
              - sumX 5 * sumY ((sortByDate ps).map Prod.snd))
            / ((5 : ℚ) * sumXX 5 - sumX 5 ^ 2),
           (sumY ((sortByDate ps).map Prod.snd) * sumXX 5
              - sumX 5 * sumXY ((sortByDate ps).map Prod.snd))
            / ((5 : ℚ) * sumXX 5 - sumX 5 ^ 2)) := by
      unfold polyfit1
      rw [hlen]
      norm_num
    rw [h1, hsx, hsxx, hsy, hsxy, Prod.mk.injEq]
    constructor
    · rw [show (5 : ℚ) * (10 * c) - 10 * (5 * c) = 0 by ring, zero_div]
    · rw [show (5 : ℚ) * c * 30 - 10 * (10 * c) = c * 50 by ring,
        show (5 : ℚ) * 30 - 10 ^ 2 = 50 by norm_num, mul_div_assoc]
      norm_num
  have hlt : ¬ps.length < 5 := by omega
  unfold plot_forecast
  rw [if_neg hlt]
  rw [Option.getD_some, List.map_map]
  rw [show (Prod.snd ∘ fun k : ℕ =>
      (((sortByDate ps).getLastD (0, 0)).1 + (k : ℤ) + 1,
       (polyfit1 ((sortByDate ps).map Prod.snd)).1 *
           ((((sortByDate ps).map Prod.snd).length : ℚ) + (k : ℚ))
         + (polyfit1 ((sortByDate ps).map Prod.snd)).2))
    = fun k : ℕ => (polyfit1 ((sortByDate ps).map Prod.snd)).1 *
           ((((sortByDate ps).map Prod.snd).length : ℚ) + (k : ℚ))
         + (polyfit1 ((sortByDate ps).map Prod.snd)).2 from rfl]
  rw [hab]
  simp

theorem C6_constant_forecast_flat_witness :
    ([((1 : ℤ), (7 : ℚ)), (2, 7), (3, 7), (4, 7), (5, 7)] : List (ℤ × ℚ)).length = 5 ∧
    ((plot_forecast [((1 : ℤ), (7 : ℚ)), (2, 7), (3, 7), (4, 7), (5, 7)]).getD []).map
        Prod.snd = List.replicate 30 7 :=
  ⟨by decide, C6_constant_forecast_flat _ 7 (by decide) (by decide)⟩

/-! ### Helper lemmas on the daily aggregation -/

/-- A leading `nan` is skipped by the pandas sum. -/
theorem pdSum_cons_none (t : List PVal) : pdSum (none :: t) = pdSum t := rfl

/-- A leading ordinary value is added by the pandas sum. -/
theorem pdSum_cons_some (a : ℚ) (t : List PVal) : pdSum (some a :: t) = a + pdSum t := by
  unfold pdSum
  rw [show List.filterMap id (some a :: t) = a :: List.filterMap id t from rfl,
    List.sum_cons]

/-- One day's pandas total over `r :: rows` adds `r`'s value when `r` is dated
day `d`, a `nan` value contributing `0`. -/
theorem sumForDay_cons (r : Option ℤ × PVal) (rows : List (Option ℤ × PVal)) (d : ℤ) :
    sumForDay (r :: rows) d
      = (if r.1 == some d then r.2.getD 0 else 0) + sumForDay rows d := by
  unfold sumForDay
  rw [List.filter_cons]
  by_cases h : r.1 == some d
  · rw [if_pos h, if_pos h, List.map_cons]
    cases hv : r.2 with
    | none => rw [pdSum_cons_none, Option.getD_none, zero_add]
    | some a => rw [pdSum_cons_some, Option.getD_some]
  · rw [if_neg h, if_neg h, zero_add]

/-- The pandas total of the dated (non-`NaT`) rows, peeled one row at a time. -/
theorem pdTotal_cons (r : Option ℤ × PVal) (rows : List (Option ℤ × PVal)) :
    pdSum (((r :: rows).filter (fun p => p.1.isSome)).map Prod.snd)
      = (if r.1.isSome then r.2.getD 0 else 0)
        + pdSum ((rows.filter (fun p => p.1.isSome)).map Prod.snd) := by
  rw [List.filter_cons]
  by_cases h : r.1.isSome
  · rw [if_pos h, if_pos h, List.map_cons]
    cases hv : r.2 with
    | none => rw [pdSum_cons_none, Option.getD_none, zero_add]
    | some a => rw [pdSum_cons_some, Option.getD_some]
  · rw [if_neg h, if_neg h, zero_add]

/-- A list sum of pointwise sums splits. -/
theorem list_sum_map_add (f g : ℤ → ℚ) (ds : List ℤ) :
    (ds.map fun d => f d + g d).sum = (ds.map f).sum + (ds.map g).sum := by
  induction ds with
  | nil => simp
  | cons a t ih =>
      rw [List.map_cons, List.sum_cons, List.map_cons, List.sum_cons,
        List.map_cons, List.sum_cons, ih]
      ring

/-- Summing an indicator over days not containing `x` gives `0`. -/
theorem list_sum_indicator_zero (x : ℤ) (v : ℚ) (ds : List ℤ) (hx : x ∉ ds) :
    (ds.map fun d => if x == d then v else 0).sum = 0 := by
  induction ds with
  | nil => rfl
  | cons a t ih =>
      rw [List.map_cons, List.sum_cons]
      have hxa : ¬(x == a) = true := by
        simp only [beq_iff_eq]
        intro h
        exact hx (h ▸ List.mem_cons_self a t)
      rw [if_neg hxa, zero_add]
      exact ih fun h => hx (List.mem_cons_of_mem _ h)

/-- Summing an indicator over a duplicate-free day list containing `x` gives the
single value `v`. -/
theorem list_sum_indicator (x : ℤ) (v : ℚ) (ds : List ℤ) (hnd : ds.Nodup)
    (hx : x ∈ ds) : (ds.map fun d => if x == d then v else 0).sum = v := by
  induction ds with
  | nil => cases hx
  | cons a t ih =>
      rw [List.map_cons, List.sum_cons]
      rcases List.mem_cons.mp hx with h | h
      · rw [if_pos (beq_iff_eq.mpr h)]
        have hxt : x ∉ t := by
          rw [h]
          exact (List.nodup_cons.mp hnd).1
        rw [list_sum_indicator_zero x v t hxt, add_zero]
      · have hxa : ¬(x == a) = true := by
          simp only [beq_iff_eq]
          intro he
          exact (List.nodup_cons.mp hnd).1 (he ▸ h)
        rw [if_neg hxa, zero_add]
        exact ih (List.nodup_cons.mp hnd).2 h

/-- Fiberwise summation: adding up the per-day pandas totals over any
duplicate-free day list covering every dated row recovers the pandas total of
all dated rows. -/
theorem aggregate_total_aux (rows : List (Option ℤ × PVal)) :
    ∀ ds : List ℤ, ds.Nodup → (∀ r ∈ rows, ∀ d : ℤ, r.1 = some d → d ∈ ds) →
      (ds.map (sumForDay rows)).sum
        = pdSum ((rows.filter (fun p => p.1.isSome)).map Prod.snd) := by
  induction rows with
  | nil =>
      intro ds _ _
      rw [show pdSum ((([] : List (Option ℤ × PVal)).filter
          (fun p => p.1.isSome)).map Prod.snd) = 0 from rfl]
      apply List.sum_eq_zero
      intro x hx
      obtain ⟨d, -, rfl⟩ := List.mem_map.mp hx
      rfl
  | cons r rest ih =>
      intro ds hnd hsub
      have hfun : sumForDay (r :: rest)
          = fun d => (if r.1 == some d then r.2.getD 0 else 0) + sumForDay rest d :=
        funext (sumForDay_cons r rest)
      rw [hfun, list_sum_map_add, pdTotal_cons,
        ih ds hnd fun r' h' d hd => hsub r' (List.mem_cons_of_mem _ h') d hd]
      congr 1
      cases hr1 : r.1 with
      | none =>
          rw [show (fun d : ℤ => if (none : Option ℤ) == some d then r.2.getD 0 else 0)
              = fun _ : ℤ => (0 : ℚ) from funext fun d => rfl]
          rw [show (if (none : Option ℤ).isSome = true then r.2.getD 0 else 0)
              = 0 from rfl]
          apply List.sum_eq_zero
          intro x hx
          obtain ⟨d, -, rfl⟩ := List.mem_map.mp hx
          rfl
      | some d0 =>
          have hcov : d0 ∈ ds := hsub r (List.mem_cons_self r rest) d0 hr1
          rw [show (fun d : ℤ => if (some d0 : Option ℤ) == some d then r.2.getD 0 else 0)
              = fun d : ℤ => if d0 == d then r.2.getD 0 else 0 from funext fun d => rfl]
          rw [list_sum_indicator d0 (r.2.getD 0) ds hnd hcov]
          rfl

/-- On `nan`-free entries the literal float sum and the pandas `skipna` sum
agree. -/
theorem floatSum_eq_pdSum (l : List PVal) (h : ∀ v ∈ l, v ≠ none) :
    floatSum l = some (pdSum l) := by
  induction l with
  | nil => rfl
  | cons v t ih =>
      cases hv : v with
      | none => exact absurd hv (h v (List.mem_cons_self v t))
      | some a =>
          have ht := ih fun w hw => h w (List.mem_cons_of_mem _ hw)
          have hstep : floatSum (some a :: t)
              = match (some a : PVal), floatSum t with
                | some x, some y => some (x + y)
                | _, _ => none := rfl
          rw [pdSum_cons_some, hstep, ht]

/-- Claim C5 counterexample: an attributed transaction whose carbon mass is
`nan` (reachable from a `nan` amount — see `C8_counterexample`) breaks the
exact round trip: pandas' daily aggregate for its day is `0` (the `skipna` sum
of a single `nan`), while the sum of that day's per-row `carbon_mass_kg`
values is `nan` — the aggregate is not the per-row sum. -/
theorem C5_counterexample :
    dailyAggregate [((some 1 : Option ℤ), (none : PVal))] = [(1, 0)] ∧
    floatSum (([((some 1 : Option ℤ), (none : PVal))].filter
        (fun r => r.1 == some 1)).map Prod.snd) = none ∧
    ¬ floatSum (([((some 1 : Option ℤ), (none : PVal))].filter
        (fun r => r.1 == some 1)).map Prod.snd) = some 0 :=
  ⟨by decide, rfl, by decide⟩

/-- Claim C5 (amended): the group-by-day aggregation feeding the forecaster
keys exactly the distinct non-`NaT` days of the attributed rows (each day
once), gives each day pandas' `skipna` sum of that day's carbon masses, and
preserves the total of the non-`nan` masses of the dated rows; on a day none
of whose carbon masses is `nan`, this is exactly the per-row sum of
`carbon_mass_kg`.  A `nan` carbon mass, however, is skipped rather than
summed (`C5_counterexample`), so the exact lose-and-invent-nothing round trip
holds only on `nan`-free data. -/
theorem C5_aggregation_round_trip (rows : List (Option ℤ × PVal)) :
    ((dailyAggregate rows).map Prod.fst).Nodup ∧
    (∀ d : ℤ, d ∈ (dailyAggregate rows).map Prod.fst ↔ some d ∈ rows.map Prod.fst) ∧
    (∀ d v, (d, v) ∈ dailyAggregate rows → v = sumForDay rows d) ∧
    ((dailyAggregate rows).map Prod.snd).sum
      = pdSum ((rows.filter (fun p => p.1.isSome)).map Prod.snd) ∧
    (∀ d : ℤ, (∀ r ∈ rows, r.1 = some d → r.2 ≠ none) →
      floatSum ((rows.filter (fun r => r.1 == some d)).map Prod.snd)
        = some (sumForDay rows d)) := by
  have hfst : (dailyAggregate rows).map Prod.fst
      = ((rows.filterMap Prod.fst).dedup).insertionSort (fun a b => a ≤ b) := by
    unfold dailyAggregate
    rw [List.map_map]
    rw [show (Prod.fst ∘ fun d => (d, sumForDay rows d)) = id from rfl, List.map_id]
  refine ⟨?_, ?_, ?_, ?_, ?_⟩
  · rw [hfst]
    exact ((List.perm_insertionSort _ _).nodup_iff).mpr (List.nodup_dedup _)
  · intro d
    rw [hfst, (List.perm_insertionSort _ _).mem_iff, List.mem_dedup,
      List.mem_filterMap, List.mem_map]
  · intro d v hm
    unfold dailyAggregate at hm
    obtain ⟨d', hd', he⟩ := List.mem_map.mp hm
    rw [Prod.mk.injEq] at he
    exact (he.1 ▸ he.2).symm
  · unfold dailyAggregate
    rw [List.map_map]
    rw [show (Prod.snd ∘ fun d => (d, sumForDay rows d)) = sumForDay rows from rfl]
    have hperm : List.Perm
        ((((rows.filterMap Prod.fst).dedup).insertionSort (fun a b => a ≤ b)).map
          (sumForDay rows))
        (((rows.filterMap Prod.fst).dedup).map (sumForDay rows)) :=
      (List.perm_insertionSort _ _).map _
    rw [hperm.sum_eq]
    apply aggregate_total_aux rows _ (List.nodup_dedup _)
    intro r hr d hd
    exact List.mem_dedup.mpr (List.mem_filterMap.mpr ⟨r, hr, hd⟩)
  · intro d hnn
    unfold sumForDay
    apply floatSum_eq_pdSum
    intro v hv
    obtain ⟨r, hr, rfl⟩ := List.mem_map.mp hv
    have hmf := List.mem_filter.mp hr
    exact hnn r hmf.1 (beq_iff_eq.mp hmf.2)

theorem C5_aggregation_round_trip_witness :
    ((1 : ℤ), (2 : ℚ)) ∈ dailyAggregate
        [((some 1 : Option ℤ), (some 2 : PVal)), (some 3, some 4)] ∧
    (2 : ℚ) = sumForDay [((some 1 : Option ℤ), (some 2 : PVal)), (some 3, some 4)] 1 ∧
    floatSum (([((some 1 : Option ℤ), (some 2 : PVal)), (some 3, some 4)].filter
        (fun r => r.1 == some 1)).map Prod.snd)
      = some (sumForDay [((some 1 : Option ℤ), (some 2 : PVal)), (some 3, some 4)] 1) :=
  ⟨by simp [dailyAggregate, sumForDay, pdSum, List.insertionSort, List.orderedInsert,
      List.filterMap_cons],
   (C5_aggregation_round_trip _).2.2.1 1 2
     (by simp [dailyAggregate, sumForDay, pdSum, List.insertionSort, List.orderedInsert,
        List.filterMap_cons]),
   (C5_aggregation_round_trip _).2.2.2.2 1 (by decide)⟩
